import Mathlib

/-!
Verification of the skill-document validator and catalog builder
(`scripts/helper.py`): a shallow embedding of `SkillValidator`
(frontmatter extraction and validation) and `SkillCatalog` (discovery,
sorting, grouping, markdown rendering), with theorems settling the
specification's claims about them.

Modelling conventions:
* Document text is `String` / `List Char`; the filesystem is a partial
  map `String → Option String` from paths to file contents.
* The Python regexes used by the source are embedded as executable
  character-list matchers implementing the semantics of `re.match` /
  `re.search` for those concrete patterns (including greedy/non-greedy
  backtracking and the `$`-before-trailing-newline rule).
* `yaml.safe_load` is an external library; it is modelled for the flat
  `key: value` headers this repository exercises (see `yaml_safe_load`).
* A Python exception is modelled as `Except.error`; a returned value as
  `Except.ok`.
-/

/-- Python `\s` on the ASCII range: space, tab, newline, carriage return,
form feed, vertical tab. -/
def isPySpace (c : Char) : Bool :=
  c = ' ' || c = '\t' || c = '\n' || c = '\r' || c = '\x0b' || c = '\x0c'

/-- The left curly brace character (written via its code point). -/
def lbrace : Char := Char.ofNat 123

/-- The right curly brace character (written via its code point). -/
def rbrace : Char := Char.ofNat 125

/-- Does `p` occur at the head of `l`? (`List.isPrefixOf`, spelled out.) -/
def leadsWith : List Char → List Char → Bool
  | [], _ => true
  | _ :: _, [] => false
  | a :: asx, b :: bs => a = b && leadsWith asx bs

/-! ## The frontmatter regex

`extract_frontmatter` runs
`re.match(r'^---\s*\n(.*?)\n---\s*\n', content, re.DOTALL)`.
We embed this concrete pattern as an executable matcher returning
`group(1)`.  `re.match` anchors at position zero; `\s*\n` (greedy with
backtracking) consumes whitespace up to a newline, trying the latest
newline in the maximal whitespace run first; `(.*?)` is non-greedy, so
the first viable closing delimiter wins. -/

/-- Does some prefix of `l` match `\s*\n`, i.e. is there a newline inside
the maximal whitespace run at the head of `l`? -/
def wsNlExists (l : List Char) : Bool :=
  (l.takeWhile isPySpace).contains '\n'

/-- Does `\n---\s*\n` match at the head of `l`?  This is the closing
delimiter of the frontmatter block. -/
def closeAt : List Char → Bool
  | '\n' :: '-' :: '-' :: '-' :: t => wsNlExists t
  | _ => false

/-- The suffixes remaining after each way of matching `\s*\n` at the head
of `l`, in the order a greedy `\s*` tries them (latest newline first). -/
def wsNlCandidates : List Char → List (List Char)
  | [] => []
  | c :: t =>
    if isPySpace c then
      if c = '\n' then wsNlCandidates t ++ [t] else wsNlCandidates t
    else []

/-- Scan for the first position where the closing delimiter
`\n---\s*\n` matches (the non-greedy `(.*?)`); return the characters
before it, i.e. `group(1)`. -/
def findClose : List Char → Option (List Char)
  | [] => none
  | c :: t => if closeAt (c :: t) then some [] else (findClose t).map (c :: ·)

/-- `re.match(r'^---\s*\n(.*?)\n---\s*\n', content, re.DOTALL)`, returning
`group(1)` on success: the text must start with `---` at position zero,
then `\s*\n` (greedy, backtracking over newline choices), then the
non-greedy body up to the first closing `\n---\s*\n`. -/
def matchFrontmatterRaw : List Char → Option (List Char)
  | '-' :: '-' :: '-' :: rest => (wsNlCandidates rest).findSome? findClose
  | _ => none

/-! ## A model of `yaml.safe_load` for flat headers

The source delegates header parsing to the external PyYAML library.  We
model it for the header shapes this repository exercises: a whitespace
only body is YAML `null`; a body that is exactly the two brace
characters is the empty mapping; otherwise each non-blank line must be
`key: value`, where an empty value is `null`, a bracketed value is a
list of strings, a numeric literal (digits, or digits-dot-digits) is a
non-string scalar, and anything else is a string.  Nested structures,
non-string keys and other scalar kinds are outside the modelled subset;
a line that is not a `key: value` pair models a parse failure
(`yaml.YAMLError`, i.e. `none`). -/

/-- A scalar or list value in a parsed header.  `num` records a
non-string scalar (a YAML integer or float) by its literal text: the
source applies `re.match` to such values, which raises `TypeError`. -/
inductive YamlValue where
  | null
  | num (lit : String)
  | str (s : String)
  | list (items : List String)
  deriving DecidableEq, Repr

/-- A parsed header document: YAML `null` or a mapping (an association
list in document order, as a Python `dict` preserves insertion order). -/
inductive YamlTop where
  | null
  | map (entries : List (String × YamlValue))
  deriving DecidableEq, Repr

/-- A header mapping: keys to values in document order. -/
abbrev Metadata := List (String × YamlValue)

/-- Split a character list at every occurrence of `sep`. -/
def splitOnChar (sep : Char) : List Char → List (List Char)
  | [] => [[]]
  | c :: t =>
    let r := splitOnChar sep t
    if c = sep then [] :: r
    else
      match r with
      | h :: t' => (c :: h) :: t'
      | [] => [[c]]

/-- Strip leading and trailing Python whitespace. -/
def pyStrip (l : List Char) : List Char :=
  ((l.dropWhile isPySpace).reverse.dropWhile isPySpace).reverse

/-- Is `l` a decimal-digit run, or two such runs joined by one dot?
These are the numeric YAML scalars the model recognises. -/
def isNumLit (l : List Char) : Bool :=
  match splitOnChar '.' l with
  | [a] => a ≠ [] && a.all Char.isDigit
  | [a, b] => a ≠ [] && a.all Char.isDigit && (b ≠ [] && b.all Char.isDigit)
  | _ => false

/-- Split a line at its first colon: `some (before, after)`, or `none`
when the line has no colon (modelled as a mapping parse failure). -/
def breakAtColon : List Char → Option (List Char × List Char)
  | [] => none
  | c :: t =>
    if c = ':' then some ([], t)
    else (breakAtColon t).map (fun p => (c :: p.1, p.2))

/-- Parse the text after `key:` into a `YamlValue`. -/
def parseScalar (raw : List Char) : YamlValue :=
  let v := pyStrip raw
  match v with
  | [] => .null
  | c :: t =>
    if c = '[' ∧ v.getLast? = some ']' then
      .list ((splitOnChar ',' t.dropLast).map (fun i => String.mk (pyStrip i)))
    else if isNumLit v then .num (String.mk v)
    else .str (String.mk v)

/-- Parse one `key: value` line of a header mapping. -/
def parseLine (l : List Char) : Option (String × YamlValue) :=
  (breakAtColon l).map (fun p => (String.mk (pyStrip p.1), parseScalar p.2))

/-- Parse the lines of a header mapping, skipping blank lines; `none` on
the first line that is not a `key: value` pair. -/
def parseMappingLines : List (List Char) → Option Metadata
  | [] => some []
  | l :: ls =>
    if pyStrip l = [] then parseMappingLines ls
    else do
      let kv ← parseLine l
      let rest ← parseMappingLines ls
      pure (kv :: rest)

/-- Modelled from the spec: `yaml.safe_load` on a header body, restricted
to the standard mapping/scalar semantics of the flat YAML-like headers
this repository uses (the library itself is external to the repository).
`none` models a raised `yaml.YAMLError`. -/
def yaml_safe_load (body : List Char) : Option YamlTop :=
  let t := pyStrip body
  if t = [] then some .null
  else if t = [lbrace, rbrace] then some (.map [])
  else (parseMappingLines (splitOnChar '\n' body)).map .map

/-- `SkillValidator.extract_frontmatter`: match the frontmatter regex at
the start of the content and parse `group(1)`; `None` (here `none`) when
the block is absent or its body fails to parse — the `except
yaml.YAMLError: return None` clause. -/
def extract_frontmatter (content : String) : Option YamlTop :=
  match matchFrontmatterRaw content.data with
  | none => none
  | some group => yaml_safe_load group

/-! ## The validator's regexes

`SkillValidator` checks names against `^[a-z0-9]+(-[a-z0-9]+)*$` and
versions against `^\d+\.\d+\.\d+$` via `re.match`, and sections against
`^##\s+SECTION` via `re.search(..., re.MULTILINE)`.  Each concrete
pattern is embedded as an executable matcher.  In Python, `$` also
matches just before a single trailing newline. -/

/-- Is `c` a lowercase ASCII letter or digit (the `[a-z0-9]` class)? -/
def isLowerDigit (c : Char) : Bool :=
  ('a' ≤ c && c ≤ 'z') || ('0' ≤ c && c ≤ '9')

/-- Match `[a-z0-9]+(-[a-z0-9]+)*` against all of `l`; `seg` records
whether the current segment already holds at least one character. -/
def kebabRun : List Char → Bool → Bool
  | [], seg => seg
  | '-' :: t, seg => seg && kebabRun t false
  | c :: t, _ => isLowerDigit c && kebabRun t true

/-- Match a full pattern against `l`, with Python's `$` rule: the match
may also end just before a single trailing newline. -/
def pyDollar (core : List Char → Bool) (l : List Char) : Bool :=
  core l || (l.getLast? = some '\n' && core l.dropLast)

/-- `re.match(r'^[a-z0-9]+(-[a-z0-9]+)*$', s)` as a Boolean. -/
def nameMatches (s : String) : Bool :=
  pyDollar (kebabRun · false) s.data

/-- Match `\d+\.\d+\.\d+` against all of `l`. -/
def versionCore (l : List Char) : Bool :=
  match splitOnChar '.' l with
  | [a, b, c] =>
    a ≠ [] && a.all Char.isDigit && (b ≠ [] && b.all Char.isDigit) &&
      (c ≠ [] && c.all Char.isDigit)
  | _ => false

/-- `re.match(r'^\d+\.\d+\.\d+$', s)` as a Boolean. -/
def versionMatches (s : String) : Bool :=
  pyDollar versionCore s.data

/-- Match `\s+sec` at the head of `l`: one or more whitespace characters
(backtracking over the count), then the literal `sec`. -/
def wsThenLit (sec : List Char) : List Char → Bool
  | [] => false
  | c :: t => isPySpace c && (leadsWith sec t || wsThenLit sec t)

/-- Does `##\s+sec` match at the head of `l`? -/
def sectionHeadAt (sec : List Char) : List Char → Bool
  | '#' :: '#' :: t => wsThenLit sec t
  | _ => false

/-- Scan `l` for a line start where `##\s+sec` matches; `atStart` is true
at position zero and after every newline (`re.MULTILINE`'s `^`). -/
def msearch (sec : List Char) : List Char → Bool → Bool
  | l, atStart =>
    (atStart && sectionHeadAt sec l) ||
      match l with
      | [] => false
      | c :: t => msearch sec t (c = '\n')

/-- `re.search(rf'^##\s+{section}', content, re.MULTILINE)` as a
Boolean. -/
def hasSection (sec : String) (content : String) : Bool :=
  msearch sec.data content.data true

/-! ## The validator -/

/-- The validator's configuration (`config['validation']`), shallowly
embedded: each regex pattern is carried both as its literal text (used
in error messages) and as its match semantics (a Boolean matcher, since
the source applies `re.match` to the configured pattern). -/
structure ValidationConfig where
  require_frontmatter : Bool
  required_fields : List String
  naming_pattern : String
  naming_matches : String → Bool
  version_pattern : String
  version_matches : String → Bool

/-- `SkillValidator.REQUIRED_FIELDS`. -/
def REQUIRED_FIELDS : List String := ["name", "version", "description"]

/-- `SkillValidator.NAME_PATTERN` (the literal pattern text). -/
def NAME_PATTERN : String := "^[a-z0-9]+(-[a-z0-9]+)*$"

/-- `SkillValidator.VERSION_PATTERN` (the literal pattern text). -/
def VERSION_PATTERN : String := "^\\d+\\.\\d+\\.\\d+$"

/-- The default configuration built by `SkillValidator._load_config`
when no config file is given. -/
def default_config : ValidationConfig :=
  { require_frontmatter := true
    required_fields := REQUIRED_FIELDS
    naming_pattern := NAME_PATTERN
    naming_matches := nameMatches
    version_pattern := VERSION_PATTERN
    version_matches := versionMatches }

/-- The dictionary returned by `SkillValidator.validate_skill`: the
`valid` flag, the ordered error list, and the `metadata` key (absent,
`none`, on the two early-return paths). -/
structure ValidationResult where
  valid : Bool
  errors : List String
  metadata : Option YamlTop
  deriving DecidableEq, Repr

/-- First value bound to `key` in a header mapping (Python `dict`
lookup; the model's mappings have distinct keys). -/
def lookupKey : Metadata → String → Option YamlValue
  | [], _ => none
  | (k, v) :: t, key => if k = key then some v else lookupKey t key

/-- The `Missing required field: ...` errors, one per required field
absent from the mapping, in the declared field order (the source's
`for field in ...: if field not in frontmatter` loop). -/
def requiredFieldErrors (fields : List String) (fm : Metadata) : List String :=
  (fields.filter (fun f => (lookupKey fm f).isNone)).map
    (fun f => "Missing required field: " ++ f)

/-- The name-format check: when `name` is present, apply the configured
pattern.  A non-string scalar makes `re.match` raise `TypeError`
(modelled as `Except.error`). -/
def namePatternErrors (cfg : ValidationConfig) (fm : Metadata) :
    Except String (List String) :=
  match lookupKey fm "name" with
  | none => .ok []
  | some (.str s) =>
    .ok (if cfg.naming_matches s then []
         else ["Invalid name format. Must match: " ++ cfg.naming_pattern])
  | some _ => .error "TypeError: expected string or bytes-like object"

/-- The version-format check, same shape as the name check. -/
def versionPatternErrors (cfg : ValidationConfig) (fm : Metadata) :
    Except String (List String) :=
  match lookupKey fm "version" with
  | none => .ok []
  | some (.str s) =>
    .ok (if cfg.version_matches s then []
         else ["Invalid version format. Must match: " ++ cfg.version_pattern])
  | some _ => .error "TypeError: expected string or bytes-like object"

/-- `SkillValidator._validate_content`: the hard-coded required section
list. -/
def required_sections : List String := ["Overview", "Instructions", "Examples"]

/-- `SkillValidator._validate_content`: one `Missing required section:`
error per section whose `^##\s+SECTION` heading is not found, in
declared order. -/
def validate_content (content : String) : List String :=
  (required_sections.filter (fun s => !hasSection s content)).map
    (fun s => "Missing required section: " ++ s)

/-- `SkillValidator.validate_skill`, after the file content is read.
The Python `if not frontmatter` test is falsy for `None`, YAML `null`
and the empty mapping, so the main path runs exactly on a non-empty
parsed mapping.  A raised `TypeError` from `re.match` on a non-string
scalar is `Except.error`. -/
def validate_of_content (cfg : ValidationConfig) (content : String) :
    Except String ValidationResult :=
  match extract_frontmatter content with
  | some (.map (e :: es)) => do
    let nameErrs ← namePatternErrors cfg (e :: es)
    let verErrs ← versionPatternErrors cfg (e :: es)
    .ok { valid := (requiredFieldErrors cfg.required_fields (e :: es) ++ nameErrs
                     ++ verErrs ++ validate_content content).isEmpty
          errors := requiredFieldErrors cfg.required_fields (e :: es) ++ nameErrs
                     ++ verErrs ++ validate_content content
          metadata := some (.map (e :: es)) }
  | _ =>
    .ok { valid := false
          errors := if cfg.require_frontmatter then ["Missing YAML frontmatter"] else []
          metadata := none }

/-- `SkillValidator.validate_skill`, first step: `os.path.exists` (the
filesystem map) and the file read, then the body above. -/
def validate_skill (cfg : ValidationConfig) (fs : String → Option String)
    (skill_path : String) : Except String ValidationResult :=
  match fs skill_path with
  | none => .ok { valid := false, errors := ["File does not exist"], metadata := none }
  | some content => validate_of_content cfg content

/-! ## The catalog builder

`SkillCatalog._discover_skills` walks the tree for files named
`SKILL.md`; the walk itself is filesystem traversal, so the model takes
the discovered documents as a list of `(path relative to the root,
content)` pairs in arbitrary traversal order. -/

/-- Join rendered list items with comma-space, at the character level. -/
def joinComma : List String → List Char
  | [] => []
  | [x] => x.data
  | x :: xs => x.data ++ (',' :: ' ' :: joinComma xs)

/-- Python `str(value)` for the modelled header values, used where the
source interpolates a raw value into an f-string (list items are
rendered unquoted — a simplification of `repr` that no claim
exercises). -/
def pyStr : YamlValue → String
  | .null => "None"
  | .num lit => lit
  | .str s => s
  | .list items => String.mk ('[' :: (joinComma items ++ [']']))

/-- `metadata['path'] = relPath` on a Python `dict`: replace the value
in place when the key exists, otherwise append the pair. -/
def setKey : Metadata → String → YamlValue → Metadata
  | [], k, v => [(k, v)]
  | (k', v') :: t, k, v =>
    if k' = k then (k, v) :: t else (k', v') :: setKey t k v

/-- The sort key `lambda x: x.get('name', '')`: the `name` value, or the
empty string when the key is missing.  Non-string `name` values are
outside the modelled subset (Python's `sorted` raises on mixed key
types); theorems restrict to string-or-missing names. -/
def nameKey (e : Metadata) : String :=
  match lookupKey e "name" with
  | some (.str s) => s
  | _ => ""

/-- Python's `<` on characters: code point order. -/
def pyCharLt (a b : Char) : Bool := decide (a.toNat < b.toNat)

/-- Python's `<=` on strings as character lists: lexicographic by code
point. -/
def pyStrLeChars : List Char → List Char → Bool
  | [], _ => true
  | _ :: _, [] => false
  | a :: ax, b :: bx => if a = b then pyStrLeChars ax bx else pyCharLt a b

/-- Python's `<=` on strings: lexicographic by code point, the order
`sorted` uses on string keys. -/
def strle (a b : String) : Prop := pyStrLeChars a.data b.data = true

instance : DecidableRel strle := fun a b =>
  inferInstanceAs (Decidable (_ = true))

/-- Characters with equal code points are equal. -/
theorem charToNat_inj (a b : Char) (h : a.toNat = b.toNat) : a = b :=
  Char.ext (UInt32.ext h)

/-- `pyStrLeChars` is total. -/
theorem pyStrLeChars_total : ∀ x y, pyStrLeChars x y = true ∨ pyStrLeChars y x = true
  | [], _ => by
    left
    rfl
  | _ :: _, [] => by
    right
    rfl
  | a :: ax, b :: bx => by
    by_cases h : a = b
    · subst h
      simpa [pyStrLeChars] using pyStrLeChars_total ax bx
    · have hn : a.toNat ≠ b.toNat := fun he => h (charToNat_inj a b he)
      have hb : ¬ (b = a) := fun he => h he.symm
      rcases Nat.lt_or_ge a.toNat b.toNat with hlt | hge
      · left
        simp [pyStrLeChars, h, pyCharLt, hlt]
      · right
        have : b.toNat < a.toNat := lt_of_le_of_ne hge (fun he => hn he.symm)
        simp [pyStrLeChars, hb, pyCharLt, this]

/-- `pyStrLeChars` is transitive. -/
theorem pyStrLeChars_trans : ∀ x y z, pyStrLeChars x y = true →
    pyStrLeChars y z = true → pyStrLeChars x z = true
  | [], _, _ => by
    intro _ _
    rfl
  | _ :: _, [], _ => by
    intro h _
    simp [pyStrLeChars] at h
  | _ :: _, _ :: _, [] => by
    intro _ h
    simp [pyStrLeChars] at h
  | a :: ax, b :: bx, c :: cx => by
    intro h1 h2
    by_cases hab : a = b
    · subst hab
      by_cases hac : a = c
      · subst hac
        simp only [pyStrLeChars, if_pos rfl] at h1 h2 ⊢
        exact pyStrLeChars_trans ax bx cx h1 h2
      · simp only [pyStrLeChars, if_pos rfl, if_neg hac] at h1 h2 ⊢
        exact h2
    · by_cases hbc : b = c
      · subst hbc
        simp only [pyStrLeChars, if_neg hab] at h1 ⊢
        exact h1
      · simp only [pyStrLeChars, if_neg hab, if_neg hbc, pyCharLt,
          decide_eq_true_eq] at h1 h2
        have hlt : a.toNat < c.toNat := Nat.lt_trans h1 h2
        have hac : ¬ (a = c) := fun he => by
          subst he
          exact Nat.lt_irrefl _ hlt
        simp [pyStrLeChars, hac, pyCharLt, hlt]

instance : IsTotal String strle :=
  ⟨fun a b => pyStrLeChars_total a.data b.data⟩

instance : IsTrans String strle :=
  ⟨fun a b c => pyStrLeChars_trans a.data b.data c.data⟩

/-- The comparison `sorted` uses on catalog entries: name keys in
Python's lexicographic (code point) order. -/
def nameLe (a b : Metadata) : Prop := strle (nameKey a) (nameKey b)

instance : DecidableRel nameLe := fun a b =>
  inferInstanceAs (Decidable (strle (nameKey a) (nameKey b)))

instance : IsTotal Metadata nameLe := ⟨fun a b => total_of strle _ _⟩

instance : IsTrans Metadata nameLe :=
  ⟨fun _ _ _ h h' => trans_of strle h h'⟩

/-- The per-file step of `SkillCatalog._discover_skills`: extract the
header; `if metadata:` keeps only a truthy (non-empty) mapping; then
`metadata['path'] = str(skill_file.relative_to(self.skills_dir))`. -/
def catalogEntry (relPath : String) (content : String) : Option Metadata :=
  match extract_frontmatter content with
  | some (.map (e :: es)) => some (setKey (e :: es) "path" (.str relPath))
  | _ => none

/-- `SkillCatalog._discover_skills` on the discovered documents:
collect the truthy entries, then `sorted(skills, key=...)`.  Python's
`sorted` is stable; `List.insertionSort` is the canonical stable sort,
so both produce the same list for this comparator. -/
def discover_skills (docs : List (String × String)) : List Metadata :=
  List.insertionSort nameLe (docs.filterMap (fun d => catalogEntry d.1 d.2))

/-- Python `str.title()` on ASCII text: a letter that follows a letter
is lowercased, any other letter is uppercased, other characters pass
through. -/
def isAsciiAlpha (c : Char) : Bool :=
  ('a' ≤ c && c ≤ 'z') || ('A' ≤ c && c ≤ 'Z')

/-- The character fold behind `pyTitle`; `prevAlpha` records whether the
previous character was a letter. -/
def titleChars : List Char → Bool → List Char
  | [], _ => []
  | c :: t, prevAlpha =>
    (if isAsciiAlpha c then
      (if prevAlpha then c.toLower else c.toUpper)
     else c) :: titleChars t (isAsciiAlpha c)

/-- Python `str.title()` (ASCII subset). -/
def pyTitle (s : String) : String := String.mk (titleChars s.data false)

/-- `skill.get('category', 'uncategorized')` rendered as the grouping
label.  Non-string category values are outside the modelled subset (the
source would raise at `category.title()`); theorems restrict to
string-or-missing categories. -/
def categoryOf (e : Metadata) : String :=
  match lookupKey e "category" with
  | some v => pyStr v
  | none => "uncategorized"

/-- Append `e` to the group of `cat`, or start a new group at the end:
the insertion-ordered `by_category` dictionary of
`_format_markdown_catalog`. -/
def addToGroup (groups : List (String × List Metadata)) (cat : String)
    (e : Metadata) : List (String × List Metadata) :=
  match groups with
  | [] => [(cat, [e])]
  | (c, l) :: t =>
    if c = cat then (c, l ++ [e]) :: t else (c, l) :: addToGroup t cat e

/-- The `by_category` grouping loop. -/
def groupByCategory (skills : List Metadata) : List (String × List Metadata) :=
  skills.foldl (fun g e => addToGroup g (categoryOf e) e) []

/-- `by_category[category]` lookup (first matching group; keys are
distinct by construction). -/
def groupLookup (groups : List (String × List Metadata)) (cat : String) :
    List Metadata :=
  match groups with
  | [] => []
  | (c, l) :: t => if c = cat then l else groupLookup t cat

/-- `skill.get(key, default)` rendered as a string for the f-string
interpolations of the markdown renderer. -/
def pyGetStr (e : Metadata) (key : String) (dflt : String) : String :=
  match lookupKey e key with
  | some v => pyStr v
  | none => dflt

/-- `', '.join(skill.get('tags', []))`.  Joining a string joins its
characters, as in Python; a missing key joins the empty list. -/
def tagsJoin (e : Metadata) : String :=
  match lookupKey e "tags" with
  | some (.list items) => String.intercalate ", " items
  | some (.str s) => String.intercalate ", " (s.data.map (fun c => String.mk [c]))
  | some _ => ""
  | none => ""

/-- The four lines `_format_markdown_catalog` appends per skill. -/
def entryLines (e : Metadata) : List String :=
  ["### " ++ pyGetStr e "name" "Unknown" ++ " (v" ++ pyGetStr e "version" "0.0.0" ++ ")\n",
   pyGetStr e "description" "No description" ++ "\n",
   "**Tags:** " ++ tagsJoin e ++ "  \n",
   "**Path:** `" ++ pyGetStr e "path" "" ++ "`\n"]

/-- The category labels in the order the renderer visits them:
`sorted(by_category.keys())` — Python's case-sensitive (code point)
string order. -/
def sortedCategories (skills : List Metadata) : List String :=
  List.insertionSort strle ((groupByCategory skills).map Prod.fst)

/-- The `lines` list `_format_markdown_catalog` builds: a title line, a
generation-timestamp line, a count line, then per category (in
`sorted(by_category.keys())` order) a `\n## Title\n` subsection heading
followed by each grouped skill's block. -/
def markdownLines (now : String) (skills : List Metadata) : List String :=
  ["# Skills Catalog\n",
   "Generated: " ++ now ++ "\n",
   "Total Skills: " ++ toString skills.length ++ "\n"]
  ++ (sortedCategories skills).flatMap (fun cat =>
      ("\n## " ++ pyTitle cat ++ "\n") ::
        (groupLookup (groupByCategory skills) cat).flatMap entryLines)

/-- `SkillCatalog._format_markdown_catalog`: the joined lines
(`'\n'.join(lines)`); `now` stands for `datetime.now().isoformat()`. -/
def format_markdown_catalog (now : String) (skills : List Metadata) : String :=
  String.intercalate "\n" (markdownLines now skills)

/-- Is a rendered line a category subsection heading (it starts with a
blank line separator and `## `)? -/
def isCatHeading (l : String) : Bool :=
  leadsWith ('\n' :: '#' :: '#' :: ' ' :: []) l.data

/-! ## Shared concrete instances for witnesses and counterexamples -/

/-- The default configuration with `require_frontmatter` turned off. -/
def cfg_no_fm : ValidationConfig :=
  { default_config with require_frontmatter := false }

/-- A filesystem holding one skill file with no frontmatter. -/
def fs_no_header : String → Option String := fun p =>
  if p = "SKILL.md" then some "# Test Skill\n\nNo frontmatter here.\n" else none

/-- A filesystem holding one complete, valid skill file. -/
def fs_valid : String → Option String := fun p =>
  if p = "SKILL.md" then
    some ("---\nname: test-skill\nversion: 1.0.0\ndescription: Test skill\n---\n\n"
      ++ "# Test Skill\n\n## Overview\n\nO.\n\n## Instructions\n\nI.\n\n## Examples\n\nE.\n")
  else none

/-! ## C1 -/

/-- C1: the claim as stated — `valid` true iff `errors` empty under any
configuration — fails on the code: with `require_frontmatter := false`
and a document with no header block, `validate_skill` returns
`valid = false` with an *empty* error list (the early return at the
frontmatter check). -/
theorem c1_counterexample :
    validate_skill cfg_no_fm fs_no_header "SKILL.md" =
      .ok { valid := false, errors := [], metadata := none } ∧
    ¬ (({ valid := false, errors := [], metadata := none } : ValidationResult).valid = true ↔
       ({ valid := false, errors := [], metadata := none } : ValidationResult).errors = []) := by
  constructor
  · rfl
  · decide

/-- C1 (amended): for every configuration, filesystem and path, a result
returned by `validate_skill` has `valid = true` iff its error list is
empty *and* it carries extracted metadata; in the one case where
metadata is absent and the missing-frontmatter error is suppressed
(`require_frontmatter` false), `valid` is `false` with empty errors. -/
theorem c1_valid_iff_errors_empty (cfg : ValidationConfig)
    (fs : String → Option String) (p : String) (r : ValidationResult)
    (h : validate_skill cfg fs p = .ok r) :
    r.valid = true ↔ (r.errors = [] ∧ r.metadata ≠ none) := by
  unfold validate_skill at h
  split at h
  · cases h
    simp
  · unfold validate_of_content at h
    split at h
    · rename_i e es heq
      match hn : namePatternErrors cfg (e :: es) with
      | .error msg => rw [hn] at h; cases h
      | .ok ne =>
        match hv : versionPatternErrors cfg (e :: es) with
        | .error msg => rw [hn, hv] at h; cases h
        | .ok ve =>
          rw [hn, hv] at h
          cases h
          simp [List.isEmpty_iff]
    · cases h
      simp

/-- C1 witness: the amended theorem applied to the default configuration
and a fully valid skill file. -/
theorem c1_witness :
    validate_skill default_config fs_valid "SKILL.md" =
      .ok { valid := true, errors := [],
            metadata := some (.map [("name", .str "test-skill"),
                                    ("version", .str "1.0.0"),
                                    ("description", .str "Test skill")]) } ∧
    (true = true ↔ (([] : List String) = [] ∧
      (some (YamlTop.map [("name", .str "test-skill"), ("version", .str "1.0.0"),
                          ("description", .str "Test skill")]) ≠ none))) :=
  ⟨by rfl, c1_valid_iff_errors_empty default_config fs_valid "SKILL.md"
    { valid := true, errors := [],
      metadata := some (.map [("name", .str "test-skill"), ("version", .str "1.0.0"),
                              ("description", .str "Test skill")]) } (by rfl)⟩

/-- Unfolding: on a readable path, `validate_skill` is the body applied
to the file's content. -/
theorem validate_skill_read (cfg : ValidationConfig) (fs : String → Option String)
    (p content : String) (hc : fs p = some content) :
    validate_skill cfg fs p = validate_of_content cfg content := by
  unfold validate_skill
  rw [hc]

/-! ## C2 -/

/-- C2: with `require_frontmatter` false and a document whose header
block is absent (or unparseable), `validate_skill` returns
`valid = false` with an empty error list, carries no metadata, and runs
no further checks — the early return at the frontmatter test. -/
theorem c2_no_frontmatter_short_circuit (cfg : ValidationConfig)
    (fs : String → Option String) (p content : String)
    (hc : fs p = some content)
    (hx : extract_frontmatter content = none)
    (hr : cfg.require_frontmatter = false) :
    validate_skill cfg fs p =
      .ok { valid := false, errors := [], metadata := none } := by
  rw [validate_skill_read cfg fs p content hc]
  unfold validate_of_content
  rw [hx]
  simp [hr]

/-- C2 witness: the theorem applied to the headerless demo file. -/
theorem c2_witness :
    fs_no_header "SKILL.md" = some "# Test Skill\n\nNo frontmatter here.\n" ∧
    extract_frontmatter "# Test Skill\n\nNo frontmatter here.\n" = none ∧
    cfg_no_fm.require_frontmatter = false ∧
    validate_skill cfg_no_fm fs_no_header "SKILL.md" =
      .ok { valid := false, errors := [], metadata := none } :=
  ⟨by rfl, by rfl, by rfl,
   c2_no_frontmatter_short_circuit cfg_no_fm fs_no_header "SKILL.md"
     "# Test Skill\n\nNo frontmatter here.\n" (by rfl) (by rfl) (by rfl)⟩

/-! ## C3 -/

/-- C3: error messages come in a fixed order.  When the header is absent
(or falsy), the single missing-frontmatter error (present exactly when
`require_frontmatter` is set) short-circuits everything else.
Otherwise the error list is exactly the missing-required-field messages
in declared field order, then the invalid-name-format error, then the
invalid-version-format error, then the missing-section messages in
declared section order. -/
theorem c3_error_order (cfg : ValidationConfig) (fs : String → Option String)
    (p content : String) (hc : fs p = some content) :
    ((extract_frontmatter content = none ∨
      extract_frontmatter content = some .null ∨
      extract_frontmatter content = some (.map [])) →
      validate_skill cfg fs p =
        .ok { valid := false
              errors := if cfg.require_frontmatter then ["Missing YAML frontmatter"] else []
              metadata := none })
    ∧ (∀ e es ne ve, extract_frontmatter content = some (.map (e :: es)) →
        namePatternErrors cfg (e :: es) = .ok ne →
        versionPatternErrors cfg (e :: es) = .ok ve →
        validate_skill cfg fs p =
          .ok { valid := (requiredFieldErrors cfg.required_fields (e :: es) ++ ne
                           ++ ve ++ validate_content content).isEmpty
                errors := requiredFieldErrors cfg.required_fields (e :: es) ++ ne
                           ++ ve ++ validate_content content
                metadata := some (.map (e :: es)) }) := by
  constructor
  · intro hx
    rw [validate_skill_read cfg fs p content hc]
    unfold validate_of_content
    rcases hx with hx | hx | hx <;> rw [hx]
  · intro e es ne ve hx hn hv
    rw [validate_skill_read cfg fs p content hc]
    unfold validate_of_content
    rw [hx]
    show Except.bind (namePatternErrors cfg (e :: es)) _ = _
    rw [hn]
    show Except.bind (versionPatternErrors cfg (e :: es)) _ = _
    rw [hv]
    rfl

/-- C3 witness: a file whose header misses `description`, has a bad
name and a bad version, and whose body misses all three sections: the
error list is exactly the concatenation in the claimed order. -/
theorem c3_witness :
    extract_frontmatter "---\nname: Bad_Name\nversion: 1.0.0.0\n---\nBody\n" =
      some (.map [("name", .str "Bad_Name"), ("version", .str "1.0.0.0")]) ∧
    validate_skill default_config
      (fun p => if p = "S" then some "---\nname: Bad_Name\nversion: 1.0.0.0\n---\nBody\n" else none)
      "S" =
      .ok { valid := false
            errors := ["Missing required field: description",
                       "Invalid name format. Must match: " ++ NAME_PATTERN,
                       "Invalid version format. Must match: " ++ VERSION_PATTERN,
                       "Missing required section: Overview",
                       "Missing required section: Instructions",
                       "Missing required section: Examples"]
            metadata := some (.map [("name", .str "Bad_Name"),
                                    ("version", .str "1.0.0.0")]) } := by
  refine ⟨by rfl, ?_⟩
  have h := (c3_error_order default_config
    (fun p => if p = "S" then some "---\nname: Bad_Name\nversion: 1.0.0.0\n---\nBody\n" else none)
    "S" "---\nname: Bad_Name\nversion: 1.0.0.0\n---\nBody\n" (by rfl)).2
    ("name", .str "Bad_Name") [("version", .str "1.0.0.0")]
    ["Invalid name format. Must match: " ++ NAME_PATTERN]
    ["Invalid version format. Must match: " ++ VERSION_PATTERN]
    (by rfl) (by rfl) (by rfl)
  exact h.trans (by rfl)

/-! ## C4 -/

/-- C4: extraction is total (it returns `none` rather than raising):
when no header block matches at the start of the text, the result is
`none`, and when a block matches but its body fails to parse, the
result is the same `none` — malformed and absent headers are
indistinguishable in the result. -/
theorem c4_extraction_absence (content : String) :
    (matchFrontmatterRaw content.data = none → extract_frontmatter content = none)
    ∧ (∀ g, matchFrontmatterRaw content.data = some g → yaml_safe_load g = none →
        extract_frontmatter content = none) := by
  constructor
  · intro h
    unfold extract_frontmatter
    rw [h]
  · intro g hg hp
    unfold extract_frontmatter
    rw [hg]
    show yaml_safe_load g = none
    exact hp

/-- C4 witness: a headerless document and a document whose header body
is not a mapping both extract to `none`. -/
theorem c4_witness :
    extract_frontmatter "# Test Skill\n\nNo frontmatter here." = none ∧
    matchFrontmatterRaw ("---\nnot a mapping line\n---\nx".data) =
      some ("not a mapping line".data) ∧
    extract_frontmatter "---\nnot a mapping line\n---\nx" = none :=
  ⟨(c4_extraction_absence "# Test Skill\n\nNo frontmatter here.").1 (by rfl),
   by rfl,
   (c4_extraction_absence "---\nnot a mapping line\n---\nx").2
     ("not a mapping line".data) (by rfl) (by rfl)⟩

/-! ## C5 -/

/-- C5: the claim as stated — a header block may follow optional leading
whitespace — is false: `re.match` anchors `^---` at position zero, so a
single leading newline defeats extraction even though a well-formed
three-hyphen-delimited block (whose body parses fine) follows. -/
theorem c5_counterexample :
    extract_frontmatter "\n---\nname: a\n---\nrest" = none ∧
    yaml_safe_load ("name: a".data) = some (.map [("name", .str "a")]) := by
  constructor
  · rfl
  · rfl

/-- No closing delimiter `\n---\s*\n` matches within the first `n`
positions of `l`. -/
def noCloseBefore : Nat → List Char → Bool
  | 0, _ => true
  | n + 1, l =>
    !closeAt l &&
      (match l with
       | [] => true
       | _ :: t => noCloseBefore n t)

/-- The non-greedy scan stops exactly at the first closing delimiter:
if no close matches inside `pre` and one matches at `post`, the scan of
`pre ++ post` returns `pre` as the body group. -/
theorem findClose_append (pre post : List Char)
    (hpre : noCloseBefore pre.length (pre ++ post) = true)
    (hpost : closeAt post = true) :
    findClose (pre ++ post) = some pre := by
  induction pre with
  | nil =>
    cases post with
    | nil => simp [closeAt] at hpost
    | cons c t => simp [findClose, hpost]
  | cons c pt ih =>
    simp only [List.length_cons, noCloseBefore, Bool.and_eq_true,
      Bool.not_eq_true'] at hpre
    obtain ⟨h1, h2⟩ := hpre
    have h2' : noCloseBefore pt.length (pt ++ post) = true := h2
    rw [List.cons_append]
    simp only [findClose]
    rw [show closeAt (c :: (pt ++ post)) = false from h1]
    simp [ih h2']

/-- C5 (amended): a document that begins at position zero (no leading
whitespace) with a `---` line, then a body whose first character is not
whitespace and that contains no earlier closing delimiter, then a
closing `---` line followed by a newline, extracts to the parsed body.
The matched group is exactly the body, and the extraction result is the
parse of that body. -/
theorem c5_block_extracts (b0 : Char) (btl rest : List Char)
    (hb : isPySpace b0 = false)
    (hnc : noCloseBefore (b0 :: btl).length
      ((b0 :: btl) ++ ('\n' :: '-' :: '-' :: '-' :: '\n' :: rest)) = true) :
    matchFrontmatterRaw
        ('-' :: '-' :: '-' :: '\n' ::
          ((b0 :: btl) ++ ('\n' :: '-' :: '-' :: '-' :: '\n' :: rest))) =
      some (b0 :: btl) ∧
    extract_frontmatter
        (String.mk ('-' :: '-' :: '-' :: '\n' ::
          ((b0 :: btl) ++ ('\n' :: '-' :: '-' :: '-' :: '\n' :: rest)))) =
      yaml_safe_load (b0 :: btl) := by
  have hclose : closeAt ('\n' :: '-' :: '-' :: '-' :: '\n' :: rest) = true := by
    simp [closeAt, wsNlExists, List.takeWhile_cons, isPySpace]
  have hmatch : matchFrontmatterRaw
      ('-' :: '-' :: '-' :: '\n' ::
        ((b0 :: btl) ++ ('\n' :: '-' :: '-' :: '-' :: '\n' :: rest))) =
      some (b0 :: btl) := by
    show (wsNlCandidates ('\n' ::
      ((b0 :: btl) ++ ('\n' :: '-' :: '-' :: '-' :: '\n' :: rest)))).findSome?
        findClose = some (b0 :: btl)
    have hnl : isPySpace '\n' = true := by decide
    have hcand : wsNlCandidates ('\n' ::
        ((b0 :: btl) ++ ('\n' :: '-' :: '-' :: '-' :: '\n' :: rest))) =
        [(b0 :: btl) ++ ('\n' :: '-' :: '-' :: '-' :: '\n' :: rest)] := by
      simp [wsNlCandidates, hnl, hb, List.cons_append]
    rw [hcand]
    have hfc : findClose (b0 :: (btl ++ ('\n' :: '-' :: '-' :: '-' :: '\n' :: rest))) =
        some (b0 :: btl) := by
      rw [← List.cons_append]
      exact findClose_append (b0 :: btl)
        ('\n' :: '-' :: '-' :: '-' :: '\n' :: rest) hnc hclose
    simp [List.findSome?, hfc]
  refine ⟨hmatch, ?_⟩
  unfold extract_frontmatter
  rw [show (String.mk ('-' :: '-' :: '-' :: '\n' ::
      ((b0 :: btl) ++ ('\n' :: '-' :: '-' :: '-' :: '\n' :: rest)))).data =
      '-' :: '-' :: '-' :: '\n' ::
        ((b0 :: btl) ++ ('\n' :: '-' :: '-' :: '-' :: '\n' :: rest)) from rfl]
  rw [hmatch]

/-- C5 witness: the amended theorem applied to the body `name: a`. -/
theorem c5_witness :
    isPySpace 'n' = false ∧
    noCloseBefore ("name: a".data).length
      ("name: a".data ++ ('\n' :: '-' :: '-' :: '-' :: '\n' :: "x".data)) = true ∧
    (matchFrontmatterRaw
        ('-' :: '-' :: '-' :: '\n' ::
          ("name: a".data ++ ('\n' :: '-' :: '-' :: '-' :: '\n' :: "x".data))) =
      some ("name: a".data) ∧
    extract_frontmatter
        (String.mk ('-' :: '-' :: '-' :: '\n' ::
          ("name: a".data ++ ('\n' :: '-' :: '-' :: '-' :: '\n' :: "x".data)))) =
      yaml_safe_load ("name: a".data)) :=
  ⟨by decide, by decide,
   c5_block_extracts 'n' ("ame: a".data) ("x".data) (by decide) (by decide)⟩

/-! ## C6 -/

/-- A filesystem holding the skill file the repository's own test
`test_validate_skill_invalid_version` writes: its `version: 1.0` parses
as a YAML float, not a string. -/
def fs_float_version : String → Option String := fun p =>
  if p = "SKILL.md" then
    some "---\nname: test-skill\nversion: 1.0\ndescription: Test skill\n---\n\n# Test Skill\n"
  else none

/-- C6: the code, not the claim, is at fault.  On a header whose
`version` value is a non-string scalar (`version: 1.0`), `re.match`
raises `TypeError` and `validate_skill` never returns a result record —
although the repository's own test expects a result with an
invalid-version-format error for exactly this input.  The
missing-file half of the claim does hold, as the second conjunct
shows. -/
theorem c6_version_float_raises :
    validate_skill default_config fs_float_version "SKILL.md" =
      .error "TypeError: expected string or bytes-like object" ∧
    validate_skill default_config fs_float_version "other.md" =
      .ok { valid := false, errors := ["File does not exist"], metadata := none } := by
  constructor
  · rfl
  · rfl

/-! ## C9 -/

/-- C9: a header that parses to YAML `null` or to the empty mapping is
falsy in Python, so it is treated exactly like an absent header: under
the default configuration `validate_skill` reports the single
missing-frontmatter error (no per-field errors), and the catalog
builder's per-file step excludes the document. -/
theorem c9_falsy_frontmatter (fs : String → Option String) (p content : String)
    (hc : fs p = some content)
    (hx : extract_frontmatter content = some .null ∨
          extract_frontmatter content = some (.map [])) :
    validate_skill default_config fs p =
      .ok { valid := false, errors := ["Missing YAML frontmatter"], metadata := none } ∧
    ∀ rel, catalogEntry rel content = none := by
  constructor
  · rw [validate_skill_read default_config fs p content hc]
    unfold validate_of_content
    rcases hx with hx | hx <;> rw [hx] <;> rfl
  · intro rel
    unfold catalogEntry
    rcases hx with hx | hx <;> rw [hx]

/-- C9 witness: the theorem applied to an empty-mapping header body (the
two-brace body) and to a blank header body. -/
theorem c9_witness :
    extract_frontmatter ("---\n\x7b\x7d\n---\nbody\n") = some (.map []) ∧
    extract_frontmatter ("---\n\n---\nbody\n") = some .null ∧
    (validate_skill default_config
        (fun p => if p = "S" then some "---\n\x7b\x7d\n---\nbody\n" else none) "S" =
      .ok { valid := false, errors := ["Missing YAML frontmatter"], metadata := none } ∧
     ∀ rel, catalogEntry rel "---\n\x7b\x7d\n---\nbody\n" = none) ∧
    (validate_skill default_config
        (fun p => if p = "S" then some "---\n\n---\nbody\n" else none) "S" =
      .ok { valid := false, errors := ["Missing YAML frontmatter"], metadata := none } ∧
     ∀ rel, catalogEntry rel "---\n\n---\nbody\n" = none) :=
  ⟨by rfl, by rfl,
   c9_falsy_frontmatter _ "S" _ (by rfl) (Or.inr (by rfl)),
   c9_falsy_frontmatter _ "S" _ (by rfl) (Or.inl (by rfl))⟩

/-! ## C10 -/

/-- Setting a key yields that key's value (Python `d[k] = v; d[k]`). -/
theorem lookupKey_setKey_self (es : Metadata) (k : String) (v : YamlValue) :
    lookupKey (setKey es k v) k = some v := by
  induction es with
  | nil => simp [setKey, lookupKey]
  | cons e t ih =>
    by_cases h : e.1 = k
    · simp [setKey, h, lookupKey]
    · simp [setKey, h, lookupKey, ih]

/-- Setting a key leaves every other key's value unchanged. -/
theorem lookupKey_setKey_ne (es : Metadata) (k : String) (v : YamlValue)
    (k' : String) (h : k' ≠ k) :
    lookupKey (setKey es k v) k' = lookupKey es k' := by
  have h' : ¬ (k = k') := fun hk => h hk.symm
  induction es with
  | nil => simp [setKey, lookupKey, h']
  | cons e t ih =>
    by_cases he : e.1 = k
    · simp [setKey, he, lookupKey, h']
    · by_cases he' : e.1 = k'
      · simp [setKey, he, lookupKey, he', h]
      · simp [setKey, he, lookupKey, he', ih]

/-- C10: the catalog entry for a document is its header mapping with
`path` set to the location relative to the scanned root: the entry's
`path` value is the relative path (any header-declared `path` is
overwritten), and every other key's value passes through unchanged. -/
theorem c10_path_overwrites (rel content : String) (e : String × YamlValue)
    (es : Metadata)
    (hx : extract_frontmatter content = some (.map (e :: es))) :
    catalogEntry rel content = some (setKey (e :: es) "path" (.str rel)) ∧
    lookupKey (setKey (e :: es) "path" (.str rel)) "path" = some (.str rel) ∧
    ∀ k, k ≠ "path" →
      lookupKey (setKey (e :: es) "path" (.str rel)) k = lookupKey (e :: es) k := by
  refine ⟨?_, lookupKey_setKey_self _ _ _, fun k hk => lookupKey_setKey_ne _ _ _ k hk⟩
  unfold catalogEntry
  rw [hx]

/-- C10 witness: a header that itself declares `path: evil` has it
overwritten by the relative location, while `name` passes through. -/
theorem c10_witness :
    extract_frontmatter "---\nname: a-skill\npath: evil\n---\nx" =
      some (.map [("name", .str "a-skill"), ("path", .str "evil")]) ∧
    catalogEntry "a-skill/SKILL.md" "---\nname: a-skill\npath: evil\n---\nx" =
      some [("name", .str "a-skill"), ("path", .str "a-skill/SKILL.md")] ∧
    lookupKey [("name", .str "a-skill"), ("path", .str "a-skill/SKILL.md")] "path" =
      some (.str "a-skill/SKILL.md") ∧
    lookupKey [("name", .str "a-skill"), ("path", .str "a-skill/SKILL.md")] "name" =
      some (.str "a-skill") := by
  have h := c10_path_overwrites "a-skill/SKILL.md" "---\nname: a-skill\npath: evil\n---\nx"
    ("name", .str "a-skill") [("path", .str "evil")] (by rfl)
  refine ⟨by rfl, h.1.trans (by rfl), by rfl, ?_⟩
  have := h.2.2 "name" (by decide)
  exact this.trans (by rfl)

/-! ## C7 -/

/-- Is every discovered entry's `name` value a string or missing?  (The
modelled subset of `sorted(..., key=lambda x: x.get('name', ''))`: on
mixed key types Python's `sorted` raises instead of returning a
list.) -/
def strNameEntries (docs : List (String × String)) : Bool :=
  (docs.filterMap (fun d => catalogEntry d.1 d.2)).all
    (fun e => match lookupKey e "name" with
      | some (.str _) => true
      | none => true
      | _ => false)

/-- C7: whatever the traversal order, the catalog entry list is sorted
ascending by the `name` key (missing `name` reads as the empty string,
which sorts first), and it is a permutation of the discovered truthy
entries. -/
theorem c7_discover_sorted (docs : List (String × String))
    (h : strNameEntries docs = true) :
    List.Sorted nameLe (discover_skills docs) ∧
    (discover_skills docs).Perm
      (docs.filterMap (fun d => catalogEntry d.1 d.2)) :=
  ⟨List.sorted_insertionSort nameLe _, List.perm_insertionSort nameLe _⟩

/-- Two documents discovered in reverse name order. -/
def demo_docs : List (String × String) :=
  [("b-skill/SKILL.md", "---\nname: b-skill\nversion: 1.0.0\ndescription: B\n---\nx"),
   ("a-skill/SKILL.md", "---\nname: a-skill\nversion: 1.0.0\ndescription: A\n---\nx")]

/-- C7 witness: the theorem applied to the two demo documents, plus a
direct evaluation showing `a-skill` ends up before `b-skill` despite
the reversed discovery order. -/
theorem c7_witness :
    strNameEntries demo_docs = true ∧
    (discover_skills demo_docs).map nameKey = ["a-skill", "b-skill"] ∧
    (List.Sorted nameLe (discover_skills demo_docs) ∧
     (discover_skills demo_docs).Perm
       (demo_docs.filterMap (fun d => catalogEntry d.1 d.2))) :=
  ⟨by rfl, by decide, c7_discover_sorted demo_docs (by rfl)⟩

/-! ## C8 -/

/-- Does a rendered value contain no newline?  (Header values with
embedded newlines cannot arise from the modelled parser; the renderer
hypotheses use this predicate.) -/
def valueNlFree : YamlValue → Bool
  | .str s => !s.data.contains '\n'
  | .num lit => !lit.data.contains '\n'
  | .list items => items.all (fun i => !i.data.contains '\n')
  | .null => true

/-- All values of an entry are newline-free. -/
def entryNlFree (e : Metadata) : Bool :=
  e.all (fun kv => valueNlFree kv.2)

/-- All values of all entries are newline-free. -/
def skillsNlFree (skills : List Metadata) : Bool :=
  skills.all entryNlFree

/-- Is every entry's `category` value a string or missing?  (Non-string
category values are outside the modelled subset: the source would raise
at `category.title()`.) -/
def strCategories (skills : List Metadata) : Bool :=
  skills.all (fun e => match lookupKey e "category" with
    | some (.str _) => true
    | none => true
    | _ => false)

/-- Looking up in the grouping dictionary after adding one entry:
the entry lands at the end of its own category's group and leaves the
others unchanged. -/
theorem groupLookup_addToGroup (g : List (String × List Metadata))
    (cat' : String) (e : Metadata) (cat : String) :
    groupLookup (addToGroup g cat' e) cat =
      if cat = cat' then groupLookup g cat ++ [e] else groupLookup g cat := by
  induction g with
  | nil =>
    by_cases h : cat = cat' <;> simp [addToGroup, groupLookup, h]
    exact fun he => h he.symm
  | cons p t ih =>
    obtain ⟨c, l⟩ := p
    by_cases h1 : c = cat'
    · subst h1
      by_cases h2 : c = cat
      · subst h2
        simp [addToGroup, groupLookup]
      · have h2' : ¬ (cat = c) := fun he => h2 he.symm
        simp [addToGroup, groupLookup, h2, h2']
    · by_cases h2 : c = cat
      · subst h2
        simp [addToGroup, groupLookup, h1]
      · have h2' : ¬ (cat = c) := fun he => h2 he.symm
        simp [addToGroup, groupLookup, h1, h2, h2', ih]

/-- A pointwise-true predicate on skills holds on every group the
category fold builds. -/
theorem all_groupLookup (P : Metadata → Bool) :
    ∀ (skills : List Metadata) (g : List (String × List Metadata)),
      skills.all P = true →
      (∀ cat, (groupLookup g cat).all P = true) →
      ∀ cat, (groupLookup
        (skills.foldl (fun g e => addToGroup g (categoryOf e) e) g) cat).all P = true := by
  intro skills
  induction skills with
  | nil =>
    intro g _ hg cat
    exact hg cat
  | cons e t ih =>
    intro g hall hg cat
    simp only [List.all_cons, Bool.and_eq_true] at hall
    refine ih (addToGroup g (categoryOf e) e) hall.2 ?_ cat
    intro cat'
    rw [groupLookup_addToGroup]
    by_cases h : cat' = categoryOf e
    · simp [h, List.all_append, hg, hall.1]
    · simp [h, hg]

/-- A category heading line starts with a newline. -/
theorem isCatHeading_eq_false_of_head (s : String) (c : Char) (t : List Char)
    (hd : s.data = c :: t) (hc : c ≠ '\n') : isCatHeading s = false := by
  unfold isCatHeading leadsWith
  rw [hd]
  simp [leadsWith, Ne.symm hc]

/-- A line built from a newline-free string followed by one final
newline is never a category heading. -/
theorem nlFree_line_not_heading (s : String) (h : s.data.contains '\n' = false) :
    isCatHeading (s ++ "\n") = false := by
  unfold isCatHeading
  rw [String.data_append]
  cases hd : s.data with
  | nil => rfl
  | cons c t =>
    have hc : c ≠ '\n' := by
      intro he
      rw [hd, he] at h
      simp [List.contains_eq_any_beq] at h
    simp [leadsWith, Ne.symm hc]


/-- A predicate that holds on all values of a mapping holds on any
looked-up value. -/
theorem lookupKey_all (P : YamlValue → Bool) (e : Metadata)
    (h : e.all (fun kv => P kv.2) = true) (k : String) (v : YamlValue)
    (hl : lookupKey e k = some v) : P v = true := by
  induction e with
  | nil => simp [lookupKey] at hl
  | cons kv t ih =>
    simp only [List.all_cons, Bool.and_eq_true] at h
    by_cases hk : kv.1 = k
    · rw [lookupKey, if_pos hk] at hl
      cases hl
      exact h.1
    · rw [lookupKey, if_neg hk] at hl
      exact ih h.2 hl

/-- Comma-joining newline-free items stays newline-free. -/
theorem joinComma_nlFree (items : List String)
    (h : items.all (fun i => !i.data.contains '\n') = true) :
    (joinComma items).contains '\n' = false := by
  induction items with
  | nil => rfl
  | cons x xs ih =>
    simp only [List.all_cons, Bool.and_eq_true, Bool.not_eq_true'] at h
    cases xs with
    | nil => exact h.1
    | cons y ys =>
      have hx := h.1
      have hrest : (joinComma (y :: ys)).contains '\n' = false := ih h.2
      show (x.data ++ (',' :: ' ' :: joinComma (y :: ys))).contains '\n' = false
      simp only [List.contains_eq_any_beq, List.any_append, List.any_cons] at hx hrest ⊢
      simp [hx, hrest]

/-- The rendering of a newline-free value is newline-free. -/
theorem pyStr_nlFree (v : YamlValue) (h : valueNlFree v = true) :
    (pyStr v).data.contains '\n' = false := by
  cases v with
  | null => rfl
  | num lit => simpa [valueNlFree, Bool.not_eq_true'] using h
  | str s => simpa [valueNlFree, Bool.not_eq_true'] using h
  | list items =>
    show (('[' : Char) :: (joinComma items ++ [']'])).contains '\n' = false
    have hj : (joinComma items).contains '\n' = false := joinComma_nlFree items h
    simp only [List.contains_eq_any_beq, List.any_cons, List.any_append] at hj ⊢
    simp [hj]

/-- None of the four lines rendered for one skill is a category
heading. -/
theorem entryLines_filter (e : Metadata) (h : entryNlFree e = true) :
    (entryLines e).filter isCatHeading = [] := by
  have hdesc : (pyGetStr e "description" "No description").data.contains '\n' = false := by
    unfold pyGetStr
    cases hl : lookupKey e "description" with
    | none => rfl
    | some v => exact pyStr_nlFree v (lookupKey_all valueNlFree e h "description" v hl)
  have h1 : isCatHeading ("### " ++ pyGetStr e "name" "Unknown" ++ " (v"
      ++ pyGetStr e "version" "0.0.0" ++ ")\n") = false := by
    apply isCatHeading_eq_false_of_head _ '#'
      ("## ".data ++ ((pyGetStr e "name" "Unknown" ++ " (v"
        ++ pyGetStr e "version" "0.0.0" ++ ")\n").data))
    · rw [String.data_append, String.data_append, String.data_append]
      rw [String.data_append, String.data_append]
      rfl
    · decide
  have h2 : isCatHeading (pyGetStr e "description" "No description" ++ "\n") = false :=
    nlFree_line_not_heading _ hdesc
  have h3 : isCatHeading ("**Tags:** " ++ tagsJoin e ++ "  \n") = false := by
    apply isCatHeading_eq_false_of_head _ '*'
      ("*Tags:** ".data ++ ((tagsJoin e ++ "  \n").data))
    · rw [String.data_append, String.data_append]
      rfl
    · decide
  have h4 : isCatHeading ("**Path:** `" ++ pyGetStr e "path" "" ++ "`\n") = false := by
    apply isCatHeading_eq_false_of_head _ '*'
      ("*Path:** `".data ++ ((pyGetStr e "path" "" ++ "`\n").data))
    · rw [String.data_append, String.data_append]
      rfl
    · decide
  simp [entryLines, List.filter, h1, h2, h3, h4]

/-- The per-skill blocks of a group contribute no heading lines. -/
theorem group_filter (l : List Metadata) (h : l.all entryNlFree = true) :
    (l.flatMap entryLines).filter isCatHeading = [] := by
  induction l with
  | nil => rfl
  | cons e t ih =>
    simp only [List.all_cons, Bool.and_eq_true] at h
    rw [List.flatMap_cons, List.filter_append, entryLines_filter e h.1, ih h.2]
    rfl

/-- A subsection heading line is recognised as one. -/
theorem heading_is_heading (cat : String) :
    isCatHeading ("\n## " ++ pyTitle cat ++ "\n") = true := by
  unfold isCatHeading
  rw [String.data_append, String.data_append]
  show leadsWith ['\n', '#', '#', ' ']
    ('\n' :: '#' :: '#' :: ' ' :: ((pyTitle cat).data ++ "\n".data)) = true
  simp [leadsWith]

/-- Mapping a singleton-producing function and flattening is `map`. -/
theorem flatMap_singleton_eq_map (g : String → String) (l : List String) :
    (l.flatMap (fun a => [g a])) = l.map g := by
  induction l with
  | nil => rfl
  | cons x t ih => simp [List.flatMap_cons, ih]

/-- C8 (amended): in the markdown rendering there is one `##` subsection
per distinct category value (missing categories grouped under
`uncategorized`), each label rendered title-cased; the subsections
appear sorted by the raw category label in Python's case-sensitive
lexicographic (code point) order — not case-insensitively.  Stated over
header mappings whose category values are strings (or missing) and
whose values are newline-free, the modelled renderer subset. -/
theorem c8_subsection_headings (now : String) (skills : List Metadata)
    (hcat : strCategories skills = true)
    (hnl : skillsNlFree skills = true) :
    (markdownLines now skills).filter isCatHeading =
      (sortedCategories skills).map (fun cat => "\n## " ++ pyTitle cat ++ "\n")
    ∧ List.Sorted strle (sortedCategories skills) := by
  constructor
  · have hbase : (["# Skills Catalog\n",
        "Generated: " ++ now ++ "\n",
        "Total Skills: " ++ toString skills.length ++ "\n"]).filter isCatHeading = [] := by
      have b1 : isCatHeading "# Skills Catalog\n" = false := by decide
      have b2 : isCatHeading ("Generated: " ++ now ++ "\n") = false := by
        apply isCatHeading_eq_false_of_head _ 'G'
          ("enerated: ".data ++ ((now ++ "\n").data))
        · rw [String.data_append, String.data_append]
          rfl
        · decide
      have b3 : isCatHeading ("Total Skills: " ++ toString skills.length ++ "\n") = false := by
        apply isCatHeading_eq_false_of_head _ 'T'
          ("otal Skills: ".data ++ ((toString skills.length ++ "\n").data))
        · rw [String.data_append, String.data_append]
          rfl
        · decide
      simp [List.filter, b1, b2, b3]
    have hgroups : ∀ cat,
        ((groupLookup (groupByCategory skills) cat).flatMap entryLines).filter
          isCatHeading = [] := by
      intro cat
      apply group_filter
      exact all_groupLookup entryNlFree skills [] hnl (fun _ => rfl) cat
    unfold markdownLines
    rw [List.filter_append, hbase, List.nil_append, List.filter_flatMap]
    have hper : ∀ cat,
        (("\n## " ++ pyTitle cat ++ "\n") ::
          (groupLookup (groupByCategory skills) cat).flatMap entryLines).filter
            isCatHeading = ["\n## " ++ pyTitle cat ++ "\n"] := by
      intro cat
      rw [List.filter_cons_of_pos (by simp [heading_is_heading cat]), hgroups cat]
    calc (sortedCategories skills).flatMap
          (fun cat => (("\n## " ++ pyTitle cat ++ "\n") ::
            (groupLookup (groupByCategory skills) cat).flatMap entryLines).filter
              isCatHeading)
        = (sortedCategories skills).flatMap
            (fun cat => ["\n## " ++ pyTitle cat ++ "\n"]) := by
          apply List.flatMap_congr
          intro cat _
          exact hper cat
      _ = (sortedCategories skills).map (fun cat => "\n## " ++ pyTitle cat ++ "\n") :=
          flatMap_singleton_eq_map _ _
  · exact List.sorted_insertionSort strle _

/-- Case-insensitive lexicographic string order: the order the claim
says the subsections follow. -/
def ciStrle (a b : String) : Prop :=
  strle (String.mk (a.data.map Char.toLower)) (String.mk (b.data.map Char.toLower))

instance : DecidableRel ciStrle := fun a b =>
  inferInstanceAs (Decidable (strle _ _))

/-- Two skills whose categories order differently case-sensitively
(`"Zebra" < "apple"` by code point) and case-insensitively
(`"apple" < "zebra"`). -/
def c8_skills : List Metadata :=
  [[("name", .str "a-skill"), ("category", .str "apple")],
   [("name", .str "b-skill"), ("category", .str "Zebra")]]

/-- C8: the claim as stated — subsections sorted alphabetically
case-insensitively — is false: `sorted(by_category.keys())` is
case-sensitive, so the `Zebra` subsection is rendered before `Apple`,
while the case-insensitive order of the labels is `apple`, `Zebra`. -/
theorem c8_counterexample :
    (markdownLines "2024-01-01" c8_skills).filter isCatHeading =
      ["\n## Zebra\n", "\n## Apple\n"] ∧
    List.insertionSort ciStrle ((groupByCategory c8_skills).map Prod.fst) =
      ["apple", "Zebra"] ∧
    (markdownLines "2024-01-01" c8_skills).filter isCatHeading ≠
      ["\n## Apple\n", "\n## Zebra\n"] := by
  refine ⟨by decide, by decide, by decide⟩

/-- C8 witness: the amended theorem applied to the two demo skills. -/
theorem c8_witness :
    strCategories c8_skills = true ∧
    skillsNlFree c8_skills = true ∧
    ((markdownLines "T" c8_skills).filter isCatHeading =
      (sortedCategories c8_skills).map (fun cat => "\n## " ++ pyTitle cat ++ "\n")
     ∧ List.Sorted strle (sortedCategories c8_skills)) :=
  ⟨by rfl, by rfl, c8_subsection_headings "T" c8_skills (by rfl) (by rfl)⟩
